import Mathlib

/-!
Shallow embedding of the victoria_3_simulator economy core
(`src/models/state.py`, `src/models/action.py`, `src/service/country.py`)
over exact rationals, with fallible Python operations (KeyError /
AttributeError) embedded as `Except String`.

Python `Dict[str, T]` values are embedded as association lists with
unique keys; `dictGet` is dictionary lookup (first match), `dictGetD`
is Python's `dict.get(key, default)`.
-/

namespace VicSim

/-- Association-list embedding of a Python `Dict[str, α]`. -/
abbrev Dict (α : Type) : Type := List (String × α)

/-- Dictionary lookup: `d[k]` returning `none` on a missing key. -/
def dictGet {α : Type} : Dict α → String → Option α
  | [], _ => none
  | (k, v) :: rest, key => if k = key then some v else dictGet rest key

/-- Python's `d.get(k, default)`. -/
def dictGetD {α : Type} (d : Dict α) (key : String) (default : α) : α :=
  (dictGet d key).getD default

/-- Source `models/state.py::Product` — per-good price and stock entry of the ledger. -/
structure Product where
  name : String
  base_price : ℚ
  quantity : ℚ
  local_price : ℚ
  max_price_cap : ℚ
deriving DecidableEq, Repr

/-- Source `models/state.py::Product.adjust_price`: nudge `local_price` toward the
demand/supply target (or toward the cap when there is no supply), then clamp
into `[base_price, base_price * max_price_cap]`.  The two sequential Python
assignments to `self.local_price` are composed into one record update. -/
def Product.adjust_price (p : Product) (buy_orders sell_orders adjustment_rate : ℚ) : Product :=
  let lp :=
    if sell_orders > 0 then
      p.local_price + adjustment_rate * (p.base_price * (buy_orders / sell_orders) - p.local_price)
    else
      p.local_price + adjustment_rate * (p.base_price * p.max_price_cap - p.local_price)
  { p with local_price := max p.base_price (min lp (p.base_price * p.max_price_cap)) }

/-- Source `models/state.py::Employee`. -/
structure Employee where
  name : String
  wage : ℚ
  count : ℤ
deriving DecidableEq, Repr

/-- One named production-method configuration of a `ModularBuilding`
(the `production` / `consumption` sub-dicts of a `production_methods` entry). -/
structure MethodConfig where
  production : Dict ℚ
  consumption : Dict ℚ
deriving DecidableEq, Repr

/-- Source `models/state.py::Building` (with the `ModularBuilding` extras folded in:
`is_modular` is the `isinstance(·, ModularBuilding)` discriminator, and
`production_methods` / `production_method` are the modular method table and
the currently active method). -/
structure Building where
  name : String
  build_cost : ℚ
  cash_reserve : ℚ
  building_level : ℤ
  building_max_level : ℤ
  production : Dict ℚ
  consumption : Dict ℚ
  employee : Dict Employee
  base_throughput_bonus : ℚ
  shortage_penalty : ℚ
  is_modular : Bool
  production_methods : Dict MethodConfig
  production_method : Option String
deriving DecidableEq, Repr

/-- Source `Building.calculate_buy_orders`: consumption scaled by level. -/
def Building.calculate_buy_orders (b : Building) : Dict ℚ :=
  b.consumption.map (fun rq => (rq.1, rq.2 * (b.building_level : ℚ)))

/-- Source `Building.get_throughput_bonus`. -/
def Building.get_throughput_bonus (b : Building) : ℚ :=
  if b.building_level > 1 then 1 + ((b.building_level : ℚ) - 1) * 0.01 else 1.0

/-- Source `Building.calculate_throughput_multiplier`:
`max(1 + bonus/100 - shortage_penalty, 0)`. -/
def Building.calculate_throughput_multiplier (b : Building) : ℚ :=
  max (1 + b.get_throughput_bonus / 100 - b.shortage_penalty) 0

/-- Source `Building.calculate_sell_orders`: production scaled by level and throughput. -/
def Building.calculate_sell_orders (b : Building) : Dict ℚ :=
  b.production.map (fun pq => (pq.1, pq.2 * (b.building_level : ℚ) * b.calculate_throughput_multiplier))

/-- Source `Building.get_daily_production`: production scaled by level, throughput and 1/7. -/
def Building.get_daily_production (b : Building) : Dict ℚ :=
  b.production.map (fun pq => (pq.1, pq.2 * (b.building_level : ℚ) * b.calculate_throughput_multiplier * (1 / 7)))

/-- Source `Building.calculate_wages`: `Σ (1/365) * wage * count * level`. -/
def Building.calculate_wages (b : Building) : ℚ :=
  (b.employee.map (fun ne => (1 / 365 : ℚ) * ne.2.wage * (ne.2.count : ℚ) * (b.building_level : ℚ))).sum

/-- Price a quantity dictionary against the ledger price dictionary:
`Σ quantity * local_price`, raising `KeyError` on a good missing from
`product_prices` (the Python generator-sum over `prices[key].local_price`). -/
def pricedSum (product_prices : Dict Product) : Dict ℚ → ℚ → Except String ℚ
  | [], acc => .ok acc
  | (k, v) :: rest, acc =>
      match dictGet product_prices k with
      | some pr => pricedSum product_prices rest (acc + v * pr.local_price)
      | none => .error "KeyError"

/-- Source `Building.calculate_consumption_cost`: priced full-level consumption;
a consumed good missing from `product_prices` raises `KeyError`. -/
def Building.calculate_consumption_cost (b : Building) (product_prices : Dict Product) :
    Except String ℚ :=
  pricedSum product_prices
    (b.consumption.map (fun rq => (rq.1, rq.2 * (b.building_level : ℚ)))) 0

/-- Source `Building.calculate_production_value`: daily production priced at ledger
prices; a produced good missing from `product_prices` raises `KeyError`. -/
def Building.calculate_production_value (b : Building) (product_prices : Dict Product) :
    Except String ℚ :=
  pricedSum product_prices b.get_daily_production 0

/-- Source `Building.print_daily_costs`: only its fallible lookups matter here —
it prices consumption then production and can raise `KeyError`. -/
def Building.print_daily_costs (b : Building) (product_prices : Dict Product) :
    Except String Unit :=
  match b.calculate_consumption_cost product_prices with
  | .error e => .error e
  | .ok _ =>
      match b.calculate_production_value product_prices with
      | .error e => .error e
      | .ok _ => .ok ()

/-- Source `Building.update_cash_balance`: `cash_reserve += revenue - wages`, where
revenue prices daily production at ledger prices (KeyError on a missing good). -/
def Building.update_cash_balance (b : Building) (product_prices : Dict Product) :
    Except String Building :=
  match b.calculate_production_value product_prices with
  | .error e => .error e
  | .ok revenue =>
      .ok { b with cash_reserve := b.cash_reserve + (revenue - b.calculate_wages) }

/-- The loop accumulator of `Building.update_shortage_penalty`: running
maximum of `1 - available/required` over under-allocated consumed goods. -/
def shortageAccum (level : ℚ) (alloc : Dict ℚ) : Dict ℚ → ℚ → ℚ
  | [], acc => acc
  | (g, rq) :: rest, acc =>
      let total_required := rq * level
      let available := dictGetD alloc g 0
      shortageAccum level alloc rest
        (if available < total_required then max acc (1 - available / total_required) else acc)

/-- Source `Building.update_shortage_penalty`: ratchet the penalty up by 0.01 (capped
at 0.5 and at the worst instantaneous shortage) when any consumed good is
under-allocated, and reset it to 0 otherwise. -/
def Building.update_shortage_penalty (b : Building) (allocated_resources : Dict ℚ) : Building :=
  if shortageAccum (b.building_level : ℚ) allocated_resources b.consumption 0 > 0 then
    { b with
      shortage_penalty := min (min (b.shortage_penalty + 0.01) 0.5)
        (shortageAccum (b.building_level : ℚ) allocated_resources b.consumption 0) }
  else
    { b with shortage_penalty := 0 }

/-- Source `ModularBuilding.swap_production_method`: replace the active
production/consumption configuration when the method name is valid,
otherwise (an error message is printed and) nothing changes. -/
def Building.swap_production_method (b : Building) (method_name : String) : Building :=
  match dictGet b.production_methods method_name with
  | some cfg =>
      { b with production := cfg.production, consumption := cfg.consumption,
               production_method := some method_name }
  | none => b

/-- Source `models/state.py::State` — a region owning buildings and the product ledger.
(`StateM` because `State` collides with the Lean state monad name.) -/
structure StateM where
  id : String
  buildings : List Building
  resources : Dict Product
  export_tariff : ℚ
deriving DecidableEq, Repr

/-- Source `State.calculate_demand_supply`, buy side: the aggregated buy-order value
for one good (a good no building consumes aggregates to 0). -/
def StateM.totalBuyOrders (s : StateM) (r : String) : ℚ :=
  s.buildings.foldl (fun acc b => acc + dictGetD b.calculate_buy_orders r 0) 0

/-- Source `State.calculate_demand_supply`, sell side: aggregated sell orders for one good. -/
def StateM.totalSellOrders (s : StateM) (r : String) : ℚ :=
  s.buildings.foldl (fun acc b => acc + dictGetD b.calculate_sell_orders r 0) 0

/-- Source `State.update_product_prices`: per ledger product, decay toward base when
there is no demand at all, otherwise `adjust_price` with the aggregated orders. -/
def StateM.update_product_prices (s : StateM) : StateM :=
  { s with
    resources := s.resources.map (fun np =>
      let product_demand := s.totalBuyOrders np.1
      let product_supply := s.totalSellOrders np.1
      if product_demand = 0 then
        (np.1, { np.2 with local_price := max np.2.base_price (np.2.local_price * 0.98) })
      else
        (np.1, np.2.adjust_price product_demand product_supply 0.05)) }

/-- One building's contribution to `total_demand[r]`:
`consumption[r] * building_level`, and 0 when it does not consume `r`. -/
def demandOf (r : String) (b : Building) : ℚ :=
  match dictGet b.consumption r with
  | some q => q * (b.building_level : ℚ)
  | none => 0

/-- Source `State.allocate_resources`, demand aggregation:
`total_demand[r] = Σ_{buildings consuming r} consumption[r] * level`. -/
def StateM.total_demand (s : StateM) (r : String) : ℚ :=
  s.buildings.foldl (fun acc b => acc + demandOf r b) 0

/-- Key-presence of `r` in the Python `total_demand` dict: some building
consumes `r` (the key exists even when the summed demand is 0). -/
def StateM.demandKey (s : StateM) (r : String) : Bool :=
  s.buildings.any (fun b => (dictGet b.consumption r).isSome)

/-- One step of the inner write loop of `State.allocate_resources`: a
building consuming `r` and named `bname` writes
`(demand / total_demand[r]) * quantity` into the dict cell, overwriting any
earlier write to the same (name, resource) cell; other buildings keep it. -/
def allocStep (s : StateM) (r : String) (quantity : ℚ) (bname : String)
    (acc : Option ℚ) (b : Building) : Option ℚ :=
  match dictGet b.consumption r with
  | some q =>
      if b.name = bname then
        some (q * (b.building_level : ℚ) / s.total_demand r * quantity)
      else acc
  | none => acc

/-- The final content of the dict cell `allocated_resources[bname][r]`
(the last write wins, `none` when no building wrote it). -/
def allocWrite (s : StateM) (r : String) (quantity : ℚ) (bname : String)
    (bs : List Building) : Option ℚ :=
  bs.foldl (allocStep s r quantity bname) none

/-- Source `State.allocate_resources`, one cell of the result:
`allocated_resources[bname][r]`.  The outer Python loop runs only for ledger
goods with positive stock that appear in `total_demand`; a missing cell is 0
(downstream reads use `.get(·, 0)` / skip the key). -/
def StateM.allocate_resources (s : StateM) (bname r : String) : ℚ :=
  match dictGet s.resources r with
  | none => 0
  | some total_available =>
      if total_available.quantity > 0 ∧ s.demandKey r then
        (allocWrite s r total_available.quantity bname s.buildings).getD 0
      else 0

/-- The key set of `allocated_resources[bname]`: ledger goods with positive
stock that some building consumes, restricted to goods consumed by a building
named `bname` (keys appear in ledger iteration order). -/
def StateM.allocKeySet (s : StateM) (bname : String) : List String :=
  (s.resources.filter (fun rp =>
    rp.2.quantity > 0 && s.demandKey rp.1 &&
      s.buildings.any (fun b => b.name = bname && (dictGet b.consumption rp.1).isSome))).map (·.1)

/-- The row `allocated_resources[bname]` as a dictionary. -/
def StateM.allocRow (s : StateM) (bname : String) : Dict ℚ :=
  (s.allocKeySet bname).map (fun r => (r, s.allocate_resources bname r))

/-- One ledger deduction of `calculate_building_productions`:
`resources[r].quantity = max(0, quantity - amt)` (no-op on a missing key). -/
def deductOne (resources : Dict Product) (r : String) (amt : ℚ) : Dict Product :=
  resources.map (fun np =>
    if np.1 = r then (np.1, { np.2 with quantity := max 0 (np.2.quantity - amt) }) else np)

/-- One production credit of `calculate_building_productions`: increase the
stock of an existing ledger good, or create a new `Product` entry priced from
the `product_prices` snapshot — whose lookup raises `KeyError` when the good
is absent from the snapshot. -/
def creditOne (product_prices resources : Dict Product) (p : String) (amt : ℚ) :
    Except String (Dict Product) :=
  if (dictGet resources p).isSome then
    .ok (resources.map (fun np =>
      if np.1 = p then (np.1, { np.2 with quantity := np.2.quantity + amt }) else np))
  else
    match dictGet product_prices p with
    | some pr =>
        .ok (resources ++ [(p, { name := p, base_price := pr.base_price, quantity := amt,
                                 local_price := pr.local_price, max_price_cap := 1.75 })])
    | none => .error "KeyError"

/-- Credit a whole daily-production dictionary into the ledger. -/
def creditAll (product_prices : Dict Product) : Dict Product → Dict ℚ → Except String (Dict Product)
  | resources, [] => .ok resources
  | resources, (p, amt) :: rest =>
      match creditOne product_prices resources p amt with
      | .error e => .error e
      | .ok resources1 => creditAll product_prices resources1 rest

/-- The per-building loop of `State.calculate_building_productions`, threading
the mutated ledger: update the shortage penalty from the allocation row,
deduct allocated stock, compute daily production, price-and-log costs
(`print_daily_costs`), settle cash, then credit produced stock.
`s0` is the pre-tick state from which allocations were computed. -/
def tickBuildings (product_prices : Dict Product) (s0 : StateM) :
    List Building → Dict Product → Except String (Dict Product × List Building × Dict (Dict ℚ))
  | [], resources => .ok (resources, [], [])
  | b :: rest, resources =>
      let row := s0.allocRow b.name
      let b1 := b.update_shortage_penalty row
      let resources1 := row.foldl (fun res ra => deductOne res ra.1 ra.2) resources
      let daily_production := b1.get_daily_production
      match b1.print_daily_costs product_prices with
      | .error e => .error e
      | .ok _ =>
          match b1.update_cash_balance product_prices with
          | .error e => .error e
          | .ok b2 =>
              match creditAll product_prices resources1 daily_production with
              | .error e => .error e
              | .ok resources2 =>
                  match tickBuildings product_prices s0 rest resources2 with
                  | .error e => .error e
                  | .ok (resFin, bsFin, prods) =>
                      .ok (resFin, b2 :: bsFin, (b.name, daily_production) :: prods)

/-- Source `State.calculate_building_productions`: allocate from the pre-tick state,
update prices, snapshot the price dict, then run the per-building loop. -/
def StateM.calculate_building_productions (s : StateM) :
    Except String (StateM × Dict (Dict ℚ)) :=
  let s1 := s.update_product_prices
  let product_prices := s1.resources
  match tickBuildings product_prices s s.buildings s1.resources with
  | .error e => .error e
  | .ok (resFin, bsFin, prods) =>
      .ok ({ s with buildings := bsFin, resources := resFin }, prods)

/-- Source `State.get_building_by_name`: first building with the given name. -/
def StateM.get_building_by_name (s : StateM) (building_name : String) : Option Building :=
  s.buildings.find? (fun b => b.name = building_name)

/-- Source `models/action.py` — the four action variants. -/
inductive Action where
  | SwapProductionMethod (state_id building_name new_production_method : String)
  | UpgradeBuilding (state_id building_name : String)
  | DowngradeBuilding (state_id building_name : String)
  | NoAction (state_id building_name : String)
deriving DecidableEq, Repr

/-- Source `Action.state_id`. -/
def Action.state_id : Action → String
  | .SwapProductionMethod sid _ _ => sid
  | .UpgradeBuilding sid _ => sid
  | .DowngradeBuilding sid _ => sid
  | .NoAction sid _ => sid

/-- Source `Action.building_name`. -/
def Action.building_name : Action → String
  | .SwapProductionMethod _ bn _ => bn
  | .UpgradeBuilding _ bn => bn
  | .DowngradeBuilding _ bn => bn
  | .NoAction _ bn => bn

/-- Source `service/country.py::Country`.  The pydantic model declares `id`, `agent`,
`states` and `current_construction`; it declares NO `construction_progress`
field.  The embedding keeps `construction_progress : Option ℚ` where `none`
means the Python attribute does not exist (reading it raises
`AttributeError`), and `some p` means it was somehow set to `p`.  The
out-of-scope `agent` field (an external neural policy, spec §1/§6) carries no
controller state and is omitted. -/
structure Country where
  id : String
  states : Dict StateM
  current_construction : Option Action
  construction_progress : Option ℚ
deriving DecidableEq, Repr

/-- Apply `f` to the first building called `bname` (the object found by
`get_building_by_name`, which Python then mutates in place). -/
def updateFirstBuilding (bname : String) (f : Building → Building) :
    List Building → List Building
  | [] => []
  | b :: rest =>
      if b.name = bname then f b :: rest else b :: updateFirstBuilding bname f rest

/-- Apply `f` to the state stored under key `sid` (dict keys are unique, so
mutating the looked-up object updates exactly the first matching entry). -/
def updateFirstState (sid : String) (f : StateM → StateM) : Dict StateM → Dict StateM
  | [] => []
  | kv :: rest =>
      if kv.1 = sid then (kv.1, f kv.2) :: rest else kv :: updateFirstState sid f rest

/-- The in-place mutation of the building found by a swap action: apply
`swap_production_method` to the first building called `bn` of state `sid`. -/
def swapStatesUpdate (sid bn m : String) (states : Dict StateM) : Dict StateM :=
  updateFirstState sid
    (fun st1 => { st1 with
      buildings := updateFirstBuilding bn (fun b1 => b1.swap_production_method m)
        st1.buildings })
    states

/-- The in-place decrement of the building found by a downgrade action. -/
def downgradeStatesUpdate (sid bn : String) (states : Dict StateM) : Dict StateM :=
  updateFirstState sid
    (fun st1 => { st1 with
      buildings := updateFirstBuilding bn
        (fun b1 => { b1 with building_level := b1.building_level - 1 })
        st1.buildings })
    states

/-- The in-place level increment applied when a construction completes. -/
def upgradeStatesUpdate (sid bn : String) (states : Dict StateM) : Dict StateM :=
  updateFirstState sid
    (fun st1 => { st1 with
      buildings := updateFirstBuilding bn
        (fun b1 => { b1 with building_level := b1.building_level + 1 })
        st1.buildings })
    states

/-- Source `Country._swap_production_method`: `self.states[sid]` raises `KeyError` on
an unknown state id; an unknown building name or a non-modular building is a
silent no-op. -/
def Country._swap_production_method (c : Country) (sid bn m : String) :
    Except String Country :=
  match dictGet c.states sid with
  | none => .error "KeyError"
  | some st =>
      match st.get_building_by_name bn with
      | none => .ok c
      | some b =>
          if b.is_modular then
            .ok { c with states := swapStatesUpdate sid bn m c.states }
          else .ok c

/-- Source `Country._start_upgrade`: accept whenever no construction is current —
no state-id, building-name or max-level validation, and no progress init. -/
def Country._start_upgrade (c : Country) (a : Action) : Country :=
  match c.current_construction with
  | none => { c with current_construction := some a }
  | some _ => c

/-- Source `Country._downgrade_building`: `KeyError` on an unknown state id,
`AttributeError` on an unknown building name (`None.building_level`),
decrement only when `building_level > 1`. -/
def Country._downgrade_building (c : Country) (sid bn : String) :
    Except String Country :=
  match dictGet c.states sid with
  | none => .error "KeyError"
  | some st =>
      match st.get_building_by_name bn with
      | none => .error "AttributeError"
      | some b =>
          if b.building_level > 1 then
            .ok { c with states := downgradeStatesUpdate sid bn c.states }
          else .ok c

/-- Source `Country.execute_action`: `isinstance` dispatch; `NoAction` matches no
branch and falls through unchanged. -/
def Country.execute_action (c : Country) : Action → Except String Country
  | .SwapProductionMethod sid bn m => c._swap_production_method sid bn m
  | .UpgradeBuilding sid bn => .ok (c._start_upgrade (.UpgradeBuilding sid bn))
  | .DowngradeBuilding sid bn => c._downgrade_building sid bn
  | .NoAction _ _ => .ok c

/-- Source `Country.update_construction_progress`: while a construction is current,
`self.construction_progress += contribution` — which raises `AttributeError`
when the attribute was never set; on reaching `build_cost` the target levels
up, progress resets to 0 and the project clears.  An unknown state id raises
`KeyError`; an unknown building name just accumulates. -/
def Country.update_construction_progress (c : Country) (construction_contribution : ℚ) :
    Except String Country :=
  match c.current_construction with
  | none => .ok c
  | some act =>
      match c.construction_progress with
      | none => .error "AttributeError"
      | some prog =>
          let prog1 := prog + construction_contribution
          match dictGet c.states act.state_id with
          | none => .error "KeyError"
          | some st =>
              match st.buildings.find? (fun b => b.name = act.building_name) with
              | some b =>
                  if prog1 ≥ b.build_cost then
                    .ok { c with
                          states := upgradeStatesUpdate act.state_id act.building_name c.states,
                          construction_progress := some 0,
                          current_construction := none }
                  else .ok { c with construction_progress := some prog1 }
              | none => .ok { c with construction_progress := some prog1 }

/-- The construction header of `Country.record_daily_state`
(`under_construction` and `construction_progress` fields): while a
construction is current it reads `self.construction_progress`, raising
`AttributeError` when the attribute was never set. -/
def Country.record_daily_state_head (c : Country) : Except String (ℚ × ℚ) :=
  match c.current_construction with
  | some _ =>
      match c.construction_progress with
      | none => .error "AttributeError"
      | some p => .ok (1, p)
  | none => .ok (0, 0)

/-- A controller operation: one externally chosen action, or one
construction-progress contribution. -/
inductive Op where
  | exec (a : Action)
  | contribute (x : ℚ)
deriving DecidableEq, Repr

/-- Apply one controller operation. -/
def applyOp (c : Country) : Op → Except String Country
  | .exec a => c.execute_action a
  | .contribute x => c.update_construction_progress x

/-- Run a sequence of controller operations, stopping at the first raised
exception (a raised exception aborts the simulation run). -/
def runOps : Country → List Op → Except String Country
  | c, [] => .ok c
  | c, op :: rest =>
      match applyOp c op with
      | .ok c1 => runOps c1 rest
      | .error e => .error e

/-- Level bounds of spec §3/§8: every building of every state sits in
`0 ≤ building_level ≤ building_max_level`. -/
def LevelsOK (c : Country) : Prop :=
  ∀ sp ∈ c.states, ∀ b ∈ sp.2.buildings,
    0 ≤ b.building_level ∧ b.building_level ≤ b.building_max_level

instance : DecidablePred LevelsOK := fun c =>
  inferInstanceAs (Decidable (∀ sp ∈ c.states, ∀ b ∈ sp.2.buildings,
    0 ≤ b.building_level ∧ b.building_level ≤ b.building_max_level))

/-! Concrete example data, mirroring `LoggingCamp` and the seed states of
`map_sampler.py`, used to instantiate the theorems below. -/

/-- The `LoggingCamp` method table from `models/state.py`. -/
def loggingMethods : Dict MethodConfig :=
  [("SimpleForestry", { production := [("wood", 30)], consumption := [("tools", 5)] }),
   ("SawMills", { production := [("wood", 50)], consumption := [("tools", 10)] })]

/-- A level-1 `LoggingCamp` whose max level is also 1 (already maxed out). -/
def exLoggingCamp : Building :=
  { name := "Logging Camp", build_cost := 200, cash_reserve := 0,
    building_level := 1, building_max_level := 1,
    production := [("wood", 30)], consumption := [("tools", 5)],
    employee := [("shopkeeper", { name := "shopkeeper", wage := 1, count := 500 })],
    base_throughput_bonus := 0, shortage_penalty := 0,
    is_modular := true, production_methods := loggingMethods,
    production_method := some "SimpleForestry" }

/-- A tools ledger entry with stock 5. -/
def exTools : Product :=
  { name := "tools", base_price := 20, quantity := 5, local_price := 20, max_price_cap := 1.75 }

/-- A single-building state whose ledger has tools but no wood entry. -/
def exState : StateM :=
  { id := "State1", buildings := [exLoggingCamp], resources := [("tools", exTools)],
    export_tariff := 0.05 }

/-- An idle country owning `exState`. -/
def exCountry : Country :=
  { id := "Country1", states := [("State1", exState)],
    current_construction := none, construction_progress := none }

/-- First wood consumer of the spec's rationing example: requires 30 wood. -/
def exWoodA : Building :=
  { exLoggingCamp with
      name := "A", building_max_level := 5, production := [],
      consumption := [("wood", 30)], production_methods := [] }

/-- Second wood consumer of the spec's rationing example: requires 70 wood. -/
def exWoodB : Building :=
  { exLoggingCamp with
      name := "B", building_max_level := 5, production := [],
      consumption := [("wood", 70)], production_methods := [] }

/-- A wood ledger entry with stock 50. -/
def exWood : Product :=
  { name := "wood", base_price := 10, quantity := 50, local_price := 10, max_price_cap := 1.75 }

/-- The spec's rationing example: requirements 30 and 70 against stock 50. -/
def exWoodState : StateM :=
  { id := "S", buildings := [exWoodA, exWoodB], resources := [("wood", exWood)],
    export_tariff := 0.05 }

/-- A building requiring 10 tools per level, for the shortage example. -/
def exShortBuilding : Building :=
  { exLoggingCamp with consumption := [("tools", 10)] }

/-!
Verification section: helper lemmas, then one theorem per specification
claim (with witnesses and counterexamples at concrete inputs).
-/

/-- C2: immediately after adjust_price — for any demand/supply inputs, any
adjustment rate and any prior local_price — the product's local_price lies
in `[base_price, base_price * max_price_cap]`, given the data-model
invariants `0 ≤ base_price` and `1 ≤ max_price_cap`. -/
theorem adjust_price_bounds (p : Product) (buy_orders sell_orders adjustment_rate : ℚ)
    (hb : 0 ≤ p.base_price) (hc : 1 ≤ p.max_price_cap) :
    p.base_price ≤ (p.adjust_price buy_orders sell_orders adjustment_rate).local_price ∧
    (p.adjust_price buy_orders sell_orders adjustment_rate).local_price ≤
      p.base_price * p.max_price_cap := by
  unfold Product.adjust_price
  exact ⟨le_max_left _ _, max_le (le_mul_of_one_le_right hb hc) (min_le_right _ _)⟩

/-- Witness for C2: the wood product (base price 10, cap 1.75) stays within
its price band after adjust_price with demand 5 and no supply. -/
theorem adjust_price_bounds_witness :
    exWood.base_price ≤ (exWood.adjust_price 5 0 0.05).local_price ∧
    (exWood.adjust_price 5 0 0.05).local_price ≤ exWood.base_price * exWood.max_price_cap :=
  adjust_price_bounds exWood 5 0 0.05 (by norm_num [exWood]) (by norm_num [exWood])

/-- C9: executing NoAction returns the country completely unchanged — in
particular every building level, shortage penalty and active production
method, and the construction state, are untouched. -/
theorem noaction_is_identity (c : Country) (sid bn : String) :
    c.execute_action (.NoAction sid bn) = .ok c := rfl

/-- C6: evaluation of the code at the claim's own first step — with a
construction in progress, a contribution of 80 raises AttributeError
(reading the never-declared construction_progress attribute) instead of
accumulating progress 80. -/
theorem contribution_raises_attribute_error :
    ({ exCountry with
        current_construction := some (.UpgradeBuilding "State1" "Logging Camp")
     } : Country).update_construction_progress 80 = .error "AttributeError" := rfl

/-- Counterexample to C4 as stated: the example country is idle and its
Logging Camp is at max level (1 = 1), yet executing UpgradeBuilding starts
a construction instead of leaving the controller state unchanged. -/
theorem upgrade_at_max_level_starts_construction :
    exCountry.current_construction = none ∧
    exState.get_building_by_name "Logging Camp" = some exLoggingCamp ∧
    exLoggingCamp.building_level = exLoggingCamp.building_max_level ∧
    exCountry.execute_action (.UpgradeBuilding "State1" "Logging Camp") =
      .ok { exCountry with
              current_construction := some (.UpgradeBuilding "State1" "Logging Camp") } ∧
    some (Action.UpgradeBuilding "State1" "Logging Camp") ≠ (none : Option Action) := by
  refine ⟨rfl, rfl, rfl, rfl, by simp⟩

/-- C4 (amended): executing UpgradeBuilding sets the current construction to
the action whenever no construction is in progress — regardless of the
target's level or existence, and without initializing any progress value —
and is a complete no-op (the existing project untouched) whenever a
construction is already in progress. -/
theorem start_upgrade_requires_only_idle (c : Country) (sid bn : String) :
    (c.current_construction = none →
      c.execute_action (.UpgradeBuilding sid bn) =
        .ok { c with current_construction := some (.UpgradeBuilding sid bn) }) ∧
    (∀ a, c.current_construction = some a →
      c.execute_action (.UpgradeBuilding sid bn) = .ok c) := by
  constructor
  · intro h
    simp [Country.execute_action, Country._start_upgrade, h]
  · intro a h
    simp [Country.execute_action, Country._start_upgrade, h]

/-- Witness for C4: upgrading from the idle example country records the
action as the current construction. -/
theorem start_upgrade_requires_only_idle_witness :
    exCountry.execute_action (.UpgradeBuilding "State1" "Logging Camp") =
      .ok { exCountry with
              current_construction := some (.UpgradeBuilding "State1" "Logging Camp") } :=
  (start_upgrade_requires_only_idle exCountry "State1" "Logging Camp").1 rfl

/-- Counterexample to C7 as stated: a DowngradeBuilding naming an unknown
state id raises KeyError — a fatal exception, not the claimed reported
error with NoAction-equivalent behavior. -/
theorem downgrade_unknown_state_raises :
    exCountry.execute_action (.DowngradeBuilding "Atlantis" "Logging Camp") =
      .error "KeyError" ∧
    exCountry.execute_action (.NoAction "Atlantis" "Logging Camp") = .ok exCountry ∧
    (Except.error "KeyError" : Except String Country) ≠ .ok exCountry :=
  ⟨rfl, rfl, by simp⟩

/-- C8: evaluation of the code at the failing input — the example state's
Logging Camp produces wood, which is absent from the ledger, and
calculate_building_productions raises KeyError (pricing the produced good
against the price snapshot) instead of completing and creating a new
Product entry. -/
theorem production_of_unledgered_good_raises :
    exState.calculate_building_productions = .error "KeyError" := by
  norm_num [StateM.calculate_building_productions, tickBuildings,
    StateM.update_product_prices, StateM.totalBuyOrders, StateM.totalSellOrders,
    Building.calculate_buy_orders, Building.calculate_sell_orders,
    Building.calculate_throughput_multiplier, Building.get_throughput_bonus,
    Product.adjust_price, StateM.allocRow, StateM.allocKeySet, StateM.demandKey,
    StateM.allocate_resources, allocWrite, allocStep, StateM.total_demand, demandOf,
    Building.update_shortage_penalty, shortageAccum, dictGetD, dictGet, deductOne,
    Building.get_daily_production, Building.print_daily_costs,
    Building.calculate_consumption_cost, Building.calculate_production_value,
    pricedSum, Building.update_cash_balance, Building.calculate_wages,
    creditAll, creditOne, exState, exTools, exLoggingCamp, loggingMethods,
    show ("tools" = "wood") = False by simp, show ("wood" = "tools") = False by simp]

lemma dictGet_mem {α : Type} {d : Dict α} {k : String} {v : α}
    (h : dictGet d k = some v) : (k, v) ∈ d := by
  induction d with
  | nil => simp [dictGet] at h
  | cons kv rest ih =>
    rw [dictGet] at h
    by_cases hk : kv.1 = k
    · rw [if_pos hk] at h
      injection h with h
      have hkv : kv = (k, v) := Prod.ext hk h
      rw [← hkv]
      exact List.mem_cons_self _ _
    · rw [if_neg hk] at h
      exact List.mem_cons_of_mem _ (ih h)


lemma updateFirstBuilding_of_fix {bn : String} {f : Building → Building} :
    ∀ {bs : List Building},
      (∀ b, bs.find? (fun b' => b'.name = bn) = some b → f b = b) →
      updateFirstBuilding bn f bs = bs := by
  intro bs
  induction bs with
  | nil => intro _; rfl
  | cons b rest ih =>
    intro h
    rw [updateFirstBuilding]
    by_cases hb : b.name = bn
    · rw [if_pos hb, h b (List.find?_cons_of_pos _ (by simp [hb]))]
    · rw [if_neg hb]
      rw [ih]
      intro b' hb'
      exact h b' (by rw [List.find?_cons_of_neg _ (by simp [hb])]; exact hb')

lemma updateFirstState_of_fix {sid : String} {f : StateM → StateM} :
    ∀ {states : Dict StateM},
      (∀ st, dictGet states sid = some st → f st = st) →
      updateFirstState sid f states = states := by
  intro states
  induction states with
  | nil => intro _; rfl
  | cons kv rest ih =>
    intro h
    rw [updateFirstState]
    by_cases hk : kv.1 = sid
    · rw [if_pos hk, h kv.2 (by rw [dictGet, if_pos hk])]
    · rw [if_neg hk]
      rw [ih]
      intro st hst
      exact h st (by rw [dictGet, if_neg hk]; exact hst)

/-- C7 (amended): what execute_action actually does on invalid input — a swap
or downgrade naming an unknown state id raises KeyError and a downgrade
naming an unknown building raises AttributeError (fatal, nothing reported);
a swap naming an unknown building, a swap to an invalid production method,
an upgrade while a construction is active and a downgrade at level ≤ 1 are
silent no-ops that leave the economy exactly as NoAction would; an upgrade
is accepted without validating the state id, building name or max level
whenever no construction is active. -/
theorem invalid_action_outcomes (c : Country) (sid bn m : String) :
    (dictGet c.states sid = none →
      c.execute_action (.SwapProductionMethod sid bn m) = .error "KeyError" ∧
      c.execute_action (.DowngradeBuilding sid bn) = .error "KeyError") ∧
    (∀ st, dictGet c.states sid = some st → st.get_building_by_name bn = none →
      c.execute_action (.SwapProductionMethod sid bn m) = .ok c ∧
      c.execute_action (.DowngradeBuilding sid bn) = .error "AttributeError") ∧
    (∀ st b, dictGet c.states sid = some st → st.get_building_by_name bn = some b →
      dictGet b.production_methods m = none →
      c.execute_action (.SwapProductionMethod sid bn m) = .ok c) ∧
    (∀ a, c.current_construction = some a →
      c.execute_action (.UpgradeBuilding sid bn) = .ok c) ∧
    (∀ st b, dictGet c.states sid = some st → st.get_building_by_name bn = some b →
      b.building_level ≤ 1 →
      c.execute_action (.DowngradeBuilding sid bn) = .ok c) ∧
    (c.current_construction = none →
      c.execute_action (.UpgradeBuilding sid bn) =
        .ok { c with current_construction := some (.UpgradeBuilding sid bn) }) := by
  refine ⟨?_, ?_, ?_, ?_, ?_, ?_⟩
  · intro h
    constructor
    · simp [Country.execute_action, Country._swap_production_method, h]
    · simp [Country.execute_action, Country._downgrade_building, h]
  · intro st hst hb
    constructor
    · simp [Country.execute_action, Country._swap_production_method, hst, hb]
    · simp [Country.execute_action, Country._downgrade_building, hst, hb]
  · intro st b hst hb hm
    simp only [Country.execute_action, Country._swap_production_method, hst, hb]
    by_cases hmod : b.is_modular = true
    · rw [if_pos hmod]
      have hstates : swapStatesUpdate sid bn m c.states = c.states := by
        rw [swapStatesUpdate]
        apply updateFirstState_of_fix
        intro st' hst'
        have hsame : st' = st := Option.some.inj (hst'.symm.trans hst)
        subst hsame
        have hbuild :
            updateFirstBuilding bn (fun b1 => b1.swap_production_method m) st'.buildings =
              st'.buildings := by
          apply updateFirstBuilding_of_fix
          intro b' hb'
          have hsb : b' = b := Option.some.inj (hb'.symm.trans hb)
          subst hsb
          rw [Building.swap_production_method, hm]
        rw [hbuild]
      rw [hstates]
    · rw [if_neg hmod]
  · intro a h
    simp [Country.execute_action, Country._start_upgrade, h]
  · intro st b hst hb hlev
    simp only [Country.execute_action, Country._downgrade_building, hst, hb]
    rw [if_neg (by omega)]
  · intro h
    simp [Country.execute_action, Country._start_upgrade, h]

/-- Witness for C7: a swap to the undefined method "SteamDonkeys" on the
concrete example country is a silent no-op. -/
theorem invalid_action_outcomes_witness :
    exCountry.execute_action (.SwapProductionMethod "State1" "Logging Camp" "SteamDonkeys") =
      .ok exCountry :=
  (invalid_action_outcomes exCountry "State1" "Logging Camp" "SteamDonkeys").2.2.1
    exState exLoggingCamp rfl rfl rfl

lemma swap_ok_cases {c : Country} {sid bn m : String} {c' : Country}
    (h : c._swap_production_method sid bn m = .ok c') :
    c' = c ∨ c' = { c with states := swapStatesUpdate sid bn m c.states } := by
  rw [Country._swap_production_method] at h
  split at h
  · exact absurd h (by simp)
  · split at h
    · left; exact (Except.ok.inj h).symm
    · split at h
      · right; exact (Except.ok.inj h).symm
      · left; exact (Except.ok.inj h).symm

lemma downgrade_ok_cases {c : Country} {sid bn : String} {c' : Country}
    (h : c._downgrade_building sid bn = .ok c') :
    c' = c ∨ ∃ st b, dictGet c.states sid = some st ∧ st.get_building_by_name bn = some b ∧
      1 < b.building_level ∧
      c' = { c with states := downgradeStatesUpdate sid bn c.states } := by
  rw [Country._downgrade_building] at h
  split at h
  · exact absurd h (by simp)
  next st hst =>
    split at h
    · exact absurd h (by simp)
    next b hb =>
      split at h
      next hgt =>
        right
        exact ⟨st, b, hst, hb, by omega, (Except.ok.inj h).symm⟩
      next hgt =>
        left
        exact (Except.ok.inj h).symm

lemma start_upgrade_fields (c : Country) (a : Action) :
    (c._start_upgrade a).states = c.states ∧
    (c._start_upgrade a).construction_progress = c.construction_progress := by
  rw [Country._start_upgrade]
  cases c.current_construction <;> simp

lemma execute_action_progress {c : Country} {a : Action} {c' : Country}
    (h : c.execute_action a = .ok c') :
    c'.construction_progress = c.construction_progress := by
  cases a with
  | SwapProductionMethod sid bn m =>
      rcases swap_ok_cases h with h1 | h1 <;> rw [h1]
  | UpgradeBuilding sid bn =>
      have h2 : c._start_upgrade (.UpgradeBuilding sid bn) = c' := Except.ok.inj h
      rw [← h2]
      exact (start_upgrade_fields c _).2
  | DowngradeBuilding sid bn =>
      rcases downgrade_ok_cases h with h1 | ⟨st, b, _, _, _, h1⟩ <;> rw [h1]
  | NoAction sid bn =>
      have h2 : c = c' := Except.ok.inj h
      rw [← h2]

lemma swap_levels (b : Building) (m : String) :
    (b.swap_production_method m).building_level = b.building_level ∧
    (b.swap_production_method m).building_max_level = b.building_max_level := by
  rw [Building.swap_production_method]
  cases dictGet b.production_methods m <;> simp

lemma mem_updateFirstBuilding {bn : String} {f : Building → Building} :
    ∀ {bs : List Building} {b' : Building}, b' ∈ updateFirstBuilding bn f bs →
      b' ∈ bs ∨ ∃ b, bs.find? (fun x => x.name = bn) = some b ∧ b' = f b := by
  intro bs
  induction bs with
  | nil => intro b' h; simp [updateFirstBuilding] at h
  | cons b rest ih =>
      intro b' h
      rw [updateFirstBuilding] at h
      by_cases hb : b.name = bn
      · rw [if_pos hb] at h
        rcases List.mem_cons.mp h with h1 | h1
        · right; exact ⟨b, List.find?_cons_of_pos _ (by simp [hb]), h1⟩
        · left; exact List.mem_cons_of_mem _ h1
      · rw [if_neg hb] at h
        rcases List.mem_cons.mp h with h1 | h1
        · left; rw [h1]; exact List.mem_cons_self _ _
        · rcases ih h1 with h2 | ⟨bb, hf, he⟩
          · left; exact List.mem_cons_of_mem _ h2
          · right
            exact ⟨bb, by rw [List.find?_cons_of_neg _ (by simp [hb])]; exact hf, he⟩

lemma mem_updateFirstState {sid : String} {f : StateM → StateM} :
    ∀ {states : Dict StateM} {sp : String × StateM}, sp ∈ updateFirstState sid f states →
      sp ∈ states ∨ ∃ st, dictGet states sid = some st ∧ sp.2 = f st := by
  intro states
  induction states with
  | nil => intro sp h; simp [updateFirstState] at h
  | cons kv rest ih =>
      intro sp h
      rw [updateFirstState] at h
      by_cases hk : kv.1 = sid
      · rw [if_pos hk] at h
        rcases List.mem_cons.mp h with h1 | h1
        · right; exact ⟨kv.2, by rw [dictGet, if_pos hk], by rw [h1]⟩
        · left; exact List.mem_cons_of_mem _ h1
      · rw [if_neg hk] at h
        rcases List.mem_cons.mp h with h1 | h1
        · left; rw [h1]; exact List.mem_cons_self _ _
        · rcases ih h1 with h2 | ⟨st, hst, he⟩
          · left; exact List.mem_cons_of_mem _ h2
          · right
            exact ⟨st, by rw [dictGet, if_neg hk]; exact hst, he⟩

lemma levels_execute {c c' : Country} {a : Action}
    (h : c.execute_action a = .ok c') (hlv : LevelsOK c) : LevelsOK c' := by
  cases a with
  | NoAction sid bn =>
      have h2 : c = c' := Except.ok.inj h
      rw [← h2]; exact hlv
  | UpgradeBuilding sid bn =>
      have h2 : c._start_upgrade (.UpgradeBuilding sid bn) = c' := Except.ok.inj h
      intro sp hsp b hb
      rw [← h2, (start_upgrade_fields c _).1] at hsp
      exact hlv sp hsp b hb
  | SwapProductionMethod sid bn m =>
      rcases swap_ok_cases h with h1 | h1
      · rw [h1]; exact hlv
      · rw [h1]
        intro sp hsp b hb
        rw [swapStatesUpdate] at hsp
        rcases mem_updateFirstState hsp with h2 | ⟨st, hst, h2⟩
        · exact hlv sp h2 b hb
        · rw [h2] at hb
          rcases mem_updateFirstBuilding hb with h3 | ⟨bb, hf, h3⟩
          · exact hlv (sid, st) (dictGet_mem hst) b h3
          · have hbb : bb ∈ st.buildings := List.mem_of_find?_eq_some hf
            have hmem := hlv (sid, st) (dictGet_mem hst) bb hbb
            rw [h3]
            exact ⟨by rw [(swap_levels bb m).1]; exact hmem.1,
                   by rw [(swap_levels bb m).1, (swap_levels bb m).2]; exact hmem.2⟩
  | DowngradeBuilding sid bn =>
      rcases downgrade_ok_cases h with h1 | ⟨st, b0, hst, hfb, hgt, h1⟩
      · rw [h1]; exact hlv
      · rw [h1]
        intro sp hsp b hb
        rw [downgradeStatesUpdate] at hsp
        rcases mem_updateFirstState hsp with h2 | ⟨st', hst', h2⟩
        · exact hlv sp h2 b hb
        · have hsame : st' = st := Option.some.inj (hst'.symm.trans hst)
          subst hsame
          rw [h2] at hb
          rcases mem_updateFirstBuilding hb with h3 | ⟨bb, hf, h3⟩
          · exact hlv (sid, st') (dictGet_mem hst') b h3
          · have hbb : bb = b0 := Option.some.inj (hf.symm.trans hfb)
            subst hbb
            have hmem := hlv (sid, st') (dictGet_mem hst') bb (List.mem_of_find?_eq_some hf)
            rw [h3]
            refine ⟨?_, ?_⟩ <;> simp <;> omega

lemma progress_none_update {c : Country} {x : ℚ} {c' : Country}
    (hp : c.construction_progress = none)
    (h : c.update_construction_progress x = .ok c') : c' = c := by
  rw [Country.update_construction_progress] at h
  split at h
  · exact (Except.ok.inj h).symm
  · rw [hp] at h
    simp at h

lemma applyOp_invariant {c c' : Country} {op : Op}
    (h : applyOp c op = .ok c') (hp : c.construction_progress = none) (hlv : LevelsOK c) :
    c'.construction_progress = none ∧ LevelsOK c' := by
  cases op with
  | exec a => exact ⟨(execute_action_progress h).trans hp, levels_execute h hlv⟩
  | contribute x =>
      have h2 : c' = c := progress_none_update hp h
      rw [h2]
      exact ⟨hp, hlv⟩

lemma runOps_invariant : ∀ (ops : List Op) (c c' : Country),
    runOps c ops = .ok c' → c.construction_progress = none → LevelsOK c →
    c'.construction_progress = none ∧ LevelsOK c' := by
  intro ops
  induction ops with
  | nil =>
      intro c c' hrun hp hlv
      rw [runOps] at hrun
      cases Except.ok.inj hrun
      exact ⟨hp, hlv⟩
  | cons op rest ih =>
      intro c c' hrun hp hlv
      rw [runOps] at hrun
      cases hop : applyOp c op with
      | error e => rw [hop] at hrun; exact absurd hrun (by simp)
      | ok c1 =>
          rw [hop] at hrun
          have hinv := applyOp_invariant hop hp hlv
          exact ih c1 c' hrun hinv.1 hinv.2

/-- C5: from any country whose buildings start within
`0 ≤ building_level ≤ building_max_level` and whose construction-progress
attribute is in its initial unset state, any sequence of controller
operations that completes without a raised exception keeps every building
level within bounds, and a DowngradeBuilding on a level-1 building is a
complete no-op. -/
theorem building_level_bounds (c : Country) (ops : List Op) (c' : Country)
    (hp : c.construction_progress = none) (hlv : LevelsOK c)
    (hrun : runOps c ops = .ok c') :
    LevelsOK c' ∧
    (∀ sid bn st b, dictGet c.states sid = some st →
      st.get_building_by_name bn = some b → b.building_level = 1 →
      c.execute_action (.DowngradeBuilding sid bn) = .ok c) := by
  constructor
  · exact (runOps_invariant ops c c' hrun hp hlv).2
  · intro sid bn st b hst hb hone
    simp only [Country.execute_action, Country._downgrade_building, hst, hb]
    rw [if_neg (by omega)]

/-- Witness for C5: running one UpgradeBuilding from the example country
keeps all levels within bounds. -/
theorem building_level_bounds_witness :
    LevelsOK { exCountry with
                 current_construction := some (.UpgradeBuilding "State1" "Logging Camp") } :=
  (building_level_bounds exCountry [Op.exec (.UpgradeBuilding "State1" "Logging Camp")]
    { exCountry with current_construction := some (.UpgradeBuilding "State1" "Logging Camp") }
    rfl (by decide) rfl).1

/-- C10: the Country model never initializes `construction_progress`
(execute_action leaves it unset), so for any country with a current
construction and the attribute unset, update_construction_progress and
record_daily_state both raise AttributeError instead of accumulating
progress or producing a record. -/
theorem construction_progress_attribute_error (c : Country) (a : Action) (x : ℚ)
    (hc : c.current_construction = some a) (hp : c.construction_progress = none) :
    c.update_construction_progress x = .error "AttributeError" ∧
    c.record_daily_state_head = .error "AttributeError" ∧
    (∀ a' c', c.execute_action a' = .ok c' → c'.construction_progress = none) := by
  refine ⟨?_, ?_, ?_⟩
  · simp [Country.update_construction_progress, hc, hp]
  · simp [Country.record_daily_state_head, hc, hp]
  · intro a' c' h
    exact (execute_action_progress h).trans hp

/-- Witness for C10: the concrete in-progress country fails to record its
daily state with AttributeError. -/
theorem construction_progress_attribute_error_witness :
    ({ exCountry with
         current_construction := some (.UpgradeBuilding "State1" "Logging Camp") } :
       Country).record_daily_state_head = .error "AttributeError" :=
  (construction_progress_attribute_error _ (.UpgradeBuilding "State1" "Logging Camp") 80
    rfl rfl).2.1

lemma shortageAccum_ge (level : ℚ) (alloc : Dict ℚ) :
    ∀ (l : Dict ℚ) (acc : ℚ), acc ≤ shortageAccum level alloc l acc := by
  intro l
  induction l with
  | nil => intro acc; simp [shortageAccum]
  | cons q rest ih =>
      intro acc
      obtain ⟨g, rq⟩ := q
      rw [shortageAccum]
      refine le_trans ?_ (ih _)
      split
      · exact le_max_left _ _
      · exact le_refl _

lemma shortageAccum_of_no_shortage (level : ℚ) (alloc : Dict ℚ) :
    ∀ (l : Dict ℚ) (acc : ℚ),
      (∀ p ∈ l, ¬ dictGetD alloc p.1 0 < p.2 * level) →
      shortageAccum level alloc l acc = acc := by
  intro l
  induction l with
  | nil => intro acc _; simp [shortageAccum]
  | cons q rest ih =>
      intro acc h
      obtain ⟨g, rq⟩ := q
      rw [shortageAccum]
      rw [if_neg (h (g, rq) (List.mem_cons_self _ _))]
      exact ih acc (fun p hp => h p (List.mem_cons_of_mem _ hp))

lemma le_shortageAccum_of_mem (level : ℚ) (alloc : Dict ℚ) (g0 : String) (rq0 : ℚ) :
    ∀ (l : Dict ℚ) (acc : ℚ), (g0, rq0) ∈ l → dictGetD alloc g0 0 < rq0 * level →
      1 - dictGetD alloc g0 0 / (rq0 * level) ≤ shortageAccum level alloc l acc := by
  intro l
  induction l with
  | nil => intro acc h _; simp at h
  | cons q rest ih =>
      intro acc hmem hlt
      obtain ⟨g, rq⟩ := q
      rw [shortageAccum]
      rcases List.mem_cons.mp hmem with h1 | h1
      · obtain ⟨hg, hrq⟩ := Prod.mk.inj h1.symm
        subst hg
        subst hrq
        rw [if_pos hlt]
        exact le_trans (le_max_right _ _) (shortageAccum_ge level alloc rest _)
      · exact ih _ h1 hlt

/-- C3: with the shortage penalty starting in `[0, 0.5]` and nonnegative
allocation values, `update_shortage_penalty` sets
the penalty to `min(old + 0.01, 0.5, max_shortage)` when some consumed good
is allocated below `consumption[good] * level` (where `max_shortage` — the
`shortageAccum` fold — upper-bounds every shortage value
`1 - allocated/required`), resets it to exactly 0 when every consumed good
meets its requirement, and in all cases the new penalty lies in `[0, 0.5]`. -/
theorem update_shortage_penalty_cases (b : Building) (alloc : Dict ℚ)
    (h0 : 0 ≤ b.shortage_penalty) (h5 : b.shortage_penalty ≤ 0.5)
    (halloc : ∀ g, 0 ≤ dictGetD alloc g 0) :
    ((∃ p ∈ b.consumption, dictGetD alloc p.1 0 < p.2 * (b.building_level : ℚ)) →
      (b.update_shortage_penalty alloc).shortage_penalty =
        min (min (b.shortage_penalty + 0.01) 0.5)
          (shortageAccum (b.building_level : ℚ) alloc b.consumption 0)) ∧
    ((∀ p ∈ b.consumption, p.2 * (b.building_level : ℚ) ≤ dictGetD alloc p.1 0) →
      (b.update_shortage_penalty alloc).shortage_penalty = 0) ∧
    (∀ p ∈ b.consumption, dictGetD alloc p.1 0 < p.2 * (b.building_level : ℚ) →
      1 - dictGetD alloc p.1 0 / (p.2 * (b.building_level : ℚ)) ≤
        shortageAccum (b.building_level : ℚ) alloc b.consumption 0) ∧
    0 ≤ (b.update_shortage_penalty alloc).shortage_penalty ∧
    (b.update_shortage_penalty alloc).shortage_penalty ≤ 0.5 := by
  have haccum_pos :
      (∃ p ∈ b.consumption, dictGetD alloc p.1 0 < p.2 * (b.building_level : ℚ)) →
      0 < shortageAccum (b.building_level : ℚ) alloc b.consumption 0 := by
    rintro ⟨p, hp, hlt⟩
    have hreq_pos : 0 < p.2 * (b.building_level : ℚ) :=
      lt_of_le_of_lt (halloc p.1) hlt
    have hv : 0 < 1 - dictGetD alloc p.1 0 / (p.2 * (b.building_level : ℚ)) := by
      have hdiv : dictGetD alloc p.1 0 / (p.2 * (b.building_level : ℚ)) < 1 :=
        (div_lt_one hreq_pos).mpr hlt
      linarith
    calc (0 : ℚ) < 1 - dictGetD alloc p.1 0 / (p.2 * (b.building_level : ℚ)) := hv
      _ ≤ shortageAccum (b.building_level : ℚ) alloc b.consumption 0 :=
          le_shortageAccum_of_mem _ _ _ _ _ _ hp hlt
  refine ⟨?_, ?_, ?_, ?_, ?_⟩
  · intro hex
    rw [Building.update_shortage_penalty, if_pos (haccum_pos hex)]
  · intro hall
    have hz : shortageAccum (b.building_level : ℚ) alloc b.consumption 0 = 0 :=
      shortageAccum_of_no_shortage _ _ _ _ (fun p hp => not_lt.mpr (hall p hp))
    rw [Building.update_shortage_penalty, hz]
    rw [if_neg (by norm_num)]
  · intro p hp hlt
    exact le_shortageAccum_of_mem _ _ _ _ _ _ hp hlt
  · rw [Building.update_shortage_penalty]
    split
    next hm =>
      refine le_min (le_min (by linarith) (by norm_num)) (le_of_lt hm)
    next hm => norm_num
  · rw [Building.update_shortage_penalty]
    split
    · exact le_trans (min_le_left _ _) (min_le_right _ _)
    · norm_num

/-- Witness for C3 (the spec's shortage example: 10 tools required, 5
allocated): the updated penalty lies in `[0, 0.5]`. -/
theorem update_shortage_penalty_cases_witness :
    0 ≤ (exShortBuilding.update_shortage_penalty [("tools", 5)]).shortage_penalty ∧
    (exShortBuilding.update_shortage_penalty [("tools", 5)]).shortage_penalty ≤ 0.5 :=
  ⟨(update_shortage_penalty_cases exShortBuilding [("tools", 5)]
      (by norm_num [exShortBuilding, exLoggingCamp])
      (by norm_num [exShortBuilding, exLoggingCamp])
      (by intro g; simp only [dictGetD, dictGet]; split <;> simp)).2.2.2.1,
   (update_shortage_penalty_cases exShortBuilding [("tools", 5)]
      (by norm_num [exShortBuilding, exLoggingCamp])
      (by norm_num [exShortBuilding, exLoggingCamp])
      (by intro g; simp only [dictGetD, dictGet]; split <;> simp)).2.2.2.2⟩

lemma foldl_add_map (f : Building → ℚ) : ∀ (l : List Building) (a : ℚ),
    l.foldl (fun acc b => acc + f b) a = a + (l.map f).sum := by
  intro l
  induction l with
  | nil => intro a; simp
  | cons b rest ih =>
      intro a
      rw [List.foldl_cons, ih, List.map_cons, List.sum_cons]
      ring

lemma total_demand_eq_sum (s : StateM) (r : String) :
    s.total_demand r = (s.buildings.map (demandOf r)).sum := by
  rw [StateM.total_demand, foldl_add_map, zero_add]

lemma demandKey_of_pos (s : StateM) (r : String) (h : 0 < s.total_demand r) :
    s.demandKey r = true := by
  by_contra hk
  rw [Bool.not_eq_true] at hk
  rw [StateM.demandKey] at hk
  have hall : ∀ b ∈ s.buildings, dictGet b.consumption r = none := by
    intro b hb
    have h2 := (List.any_eq_false.mp hk) b hb
    exact Option.not_isSome_iff_eq_none.mp (by simpa using h2)
  have hz : s.total_demand r = 0 := by
    rw [total_demand_eq_sum]
    apply List.sum_eq_zero
    intro x hx
    rcases List.mem_map.mp hx with ⟨b, hb, he⟩
    rw [← he]
    simp [demandOf, hall b hb]
  linarith

lemma allocStep_of_ne {s : StateM} {r : String} {quantity : ℚ} {bname : String}
    {acc : Option ℚ} {b : Building} (hne : b.name ≠ bname) :
    allocStep s r quantity bname acc b = acc := by
  rw [allocStep]
  split
  · rw [if_neg hne]
  · rfl

lemma allocFold_skip (s : StateM) (r : String) (quantity : ℚ) (bname : String) :
    ∀ (bs : List Building) (acc : Option ℚ), (∀ b ∈ bs, b.name ≠ bname) →
      bs.foldl (allocStep s r quantity bname) acc = acc := by
  intro bs
  induction bs with
  | nil => intro acc _; rfl
  | cons x rest ih =>
      intro acc h
      rw [List.foldl_cons, allocStep_of_ne (h x (List.mem_cons_self _ _))]
      exact ih acc (fun b hb => h b (List.mem_cons_of_mem _ hb))

lemma allocFold_last (s : StateM) (r : String) (quantity : ℚ) :
    ∀ (bs : List Building) (b : Building) (acc : Option ℚ),
      (bs.map Building.name).Nodup → b ∈ bs →
      bs.foldl (allocStep s r quantity b.name) acc =
        (match dictGet b.consumption r with
         | some q => some (q * (b.building_level : ℚ) / s.total_demand r * quantity)
         | none => acc) := by
  intro bs
  induction bs with
  | nil => intro b acc _ h; simp at h
  | cons x rest ih =>
      intro b acc hnd hb
      have hx : x.name ∉ rest.map Building.name := (List.nodup_cons.mp hnd).1
      have hnd' : (rest.map Building.name).Nodup := (List.nodup_cons.mp hnd).2
      rw [List.foldl_cons]
      rcases List.mem_cons.mp hb with h1 | h1
      · subst h1
        have hrest : ∀ b' ∈ rest, b'.name ≠ b.name := by
          intro b' hb' he
          exact hx (he ▸ List.mem_map_of_mem Building.name hb')
        rw [allocFold_skip s r quantity b.name rest _ hrest]
        cases hq : dictGet b.consumption r <;> simp [allocStep, hq]
      · have hxb : x.name ≠ b.name := by
          intro he
          exact hx (he ▸ List.mem_map_of_mem Building.name h1)
        rw [allocStep_of_ne hxb]
        exact ih b acc hnd' h1

lemma allocate_resources_eq (s : StateM) (r : String) (prod : Product) (b : Building)
    (hr : dictGet s.resources r = some prod) (hQ : 0 < prod.quantity)
    (hR : 0 < s.total_demand r)
    (hnd : (s.buildings.map Building.name).Nodup) (hb : b ∈ s.buildings) :
    s.allocate_resources b.name r = demandOf r b / s.total_demand r * prod.quantity := by
  have hkey : s.demandKey r = true := demandKey_of_pos s r hR
  simp only [StateM.allocate_resources, hr]
  rw [if_pos ⟨hQ, by rw [hkey]⟩]
  rw [allocWrite, allocFold_last s r prod.quantity s.buildings b none hnd hb]
  cases hq : dictGet b.consumption r with
  | some q => simp [demandOf, hq]
  | none => simp [demandOf, hq]

lemma sum_map_mul_const (f : Building → ℚ) (c : ℚ) : ∀ (l : List Building),
    (l.map (fun b => f b * c)).sum = (l.map f).sum * c := by
  intro l
  induction l with
  | nil => simp
  | cons b rest ih => simp [ih, add_mul]

/-- C1: for a ledger good with positive stock `Q` and positive aggregate
requirement `R = total_demand[r]` (building names unique within the state, as
the data model requires), `allocate_resources` grants every building
consuming the good exactly `Q * (consumption[r] * level) / R`, and the
per-building allocations sum exactly to `Q` — in particular when `R > Q`. -/
theorem allocate_resources_proportional (s : StateM) (r : String) (prod : Product)
    (hr : dictGet s.resources r = some prod) (hQ : 0 < prod.quantity)
    (hR : 0 < s.total_demand r) (hnd : (s.buildings.map Building.name).Nodup) :
    (∀ b ∈ s.buildings, ∀ q, dictGet b.consumption r = some q →
      s.allocate_resources b.name r =
        prod.quantity * (q * (b.building_level : ℚ)) / s.total_demand r) ∧
    (s.buildings.map (fun b => s.allocate_resources b.name r)).sum = prod.quantity := by
  constructor
  · intro b hb q hq
    rw [allocate_resources_eq s r prod b hr hQ hR hnd hb]
    simp only [demandOf, hq]
    ring
  · have hcong : (s.buildings.map (fun b => s.allocate_resources b.name r)) =
        s.buildings.map (fun b => demandOf r b * (prod.quantity / s.total_demand r)) := by
      apply List.map_congr_left
      intro b hb
      rw [allocate_resources_eq s r prod b hr hQ hR hnd hb]
      ring
    rw [hcong, sum_map_mul_const, ← total_demand_eq_sum, mul_comm, div_mul_cancel₀]
    exact ne_of_gt hR

/-- Witness for C1 (the spec's rationing example: requirements 30 and 70
against wood stock 50): the allocations sum to the stock, 50. -/
theorem allocate_resources_proportional_witness :
    (exWoodState.buildings.map
      (fun b => exWoodState.allocate_resources b.name "wood")).sum = exWood.quantity :=
  (allocate_resources_proportional exWoodState "wood" exWood rfl
    (by norm_num [exWood])
    (by norm_num [StateM.total_demand, demandOf, dictGet, exWoodState, exWoodA, exWoodB,
      exLoggingCamp])
    (by decide)).2

end VicSim
